import Mathlib

/-
Verification of the minidoro pomodoro timer core.

The Timer Engine lives in src/PomoTimer.ts (class PomoTimer); the Session
Sequencer lives in src/main.ts (class PomodoroPlugin).  Both are embedded
shallowly below: every operation becomes a pure Lean function from the
explicit record of the object's mutable fields to the updated record
together with the list of callback invocations ("events") the operation
emits, in emission order.  Wall-clock time (Date.now(), in milliseconds)
and the handle returned by window.setInterval are passed in as arguments.
-/

set_option linter.unusedVariables false

namespace Minidoro

/-- The TimerState enum of src/PomoTimer.ts. -/
inductive TimerState
  | Work
  | ShortBreak
  | LongBreak
  | Paused
  | Idle
deriving DecidableEq, Repr

/-- The PomodoroSettings interface of src/PomoTimer.ts.  Duration fields are
minutes; the sliders in the settings tab only produce natural numbers. -/
structure PomodoroSettings where
  workTime : Nat
  shortBreakTime : Nat
  longBreakTime : Nat
  longBreakInterval : Nat
  autoStartBreaks : Bool
  autoStartPomodoros : Bool
  showDesktopNotification : Bool
  playSound : Bool
  showInStatusBar : Bool
deriving DecidableEq, Repr

/-- DEFAULT_SETTINGS of src/PomoTimer.ts. -/
def DEFAULT_SETTINGS : PomodoroSettings :=
  { workTime := 25, shortBreakTime := 5, longBreakTime := 15,
    longBreakInterval := 4, autoStartBreaks := false, autoStartPomodoros := false,
    showDesktopNotification := true, playSound := true, showInStatusBar := false }

/-- The mutable fields of class PomoTimer (src/PomoTimer.ts, lines 12-17).
Field initializers give the state of a freshly constructed instance. -/
structure Engine where
  state : TimerState := .Idle
  prePauseState : TimerState := .Idle
  remainingTime : Int := 0
  totalTime : Int := 0
  targetTime : Option Int := none
  intervalId : Option Nat := none
deriving DecidableEq, Repr

/-- A freshly constructed PomoTimer. -/
def Engine.initial : Engine := {}

/-- One callback invocation emitted by the engine: onTick(remaining, total),
onTimerComplete(), or onStateChange(s). -/
inductive Event
  | tick (remainingTime totalTime : Int)
  | complete
  | stateChange (s : TimerState)
deriving DecidableEq, Repr

/-- Math.ceil(x / 1000) on an integer x, written as the least integer q with
x ≤ 1000 * q, via the identity ceil(x/d) = -floor(-x/d).  The tick handler in
src/PomoTimer.ts line 80 computes Math.ceil((targetTime - now) / 1000). -/
def ceilDiv1000 (x : Int) : Int := -(-x / 1000)

/-- PomoTimer.isRunning (src/PomoTimer.ts lines 148-150). -/
def Engine.isRunning (e : Engine) : Bool :=
  e.state != .Idle && e.state != .Paused

/-- PomoTimer.stop (src/PomoTimer.ts lines 119-129): cancel any live
interval, reset to Idle with zeroed times, emit one tick. -/
def Engine.stop (e : Engine) : Engine × List Event :=
  let e1 : Engine :=
    { e with intervalId := none, state := .Idle, remainingTime := 0,
             totalTime := 0, targetTime := none }
  (e1, [Event.tick e1.remainingTime e1.totalTime])

/-- PomoTimer.reset (src/PomoTimer.ts lines 131-134): stop, then one more
onTick(0, 0). -/
def Engine.reset (e : Engine) : Engine × List Event :=
  let (e1, evs) := e.stop
  (e1, evs ++ [Event.tick 0 0])

/-- The switch statement of PomoTimer.start (src/PomoTimer.ts lines 50-60):
the configured duration of a session kind, in whole seconds.  The fallback
is the JS fall-through for states absent from the switch, which leaves
remainingTime unchanged (unreachable because of the guard at line 43). -/
def startDuration (settings : PomodoroSettings) (s : TimerState)
    (fallback : Int) : Int :=
  match s with
  | .Work => (settings.workTime : Int) * 60
  | .ShortBreak => (settings.shortBreakTime : Int) * 60
  | .LongBreak => (settings.longBreakTime : Int) * 60
  | _ => fallback

/-- PomoTimer.start (src/PomoTimer.ts lines 42-97), up to and including the
immediate onTick at line 96.  `now` is Date.now() at the call; `freshId` is
the handle of the newly installed interval (the old handle, if any, is
cleared at lines 69-71 and then overwritten at line 74).  The recurring tick
behaviour installed here is modelled separately by Engine.tick. -/
def Engine.start (settings : PomodoroSettings) (now : Int) (freshId : Nat)
    (e : Engine) (state : TimerState) : Engine × List Event :=
  if state = .Idle ∨ state = .Paused then (e, [])
  else
    let e1 : Engine := { e with state := state }
    let e2 : Engine :=
      if e1.remainingTime ≤ 0 then
        let r : Int := startDuration settings e1.state e1.remainingTime
        { e1 with remainingTime := r, totalTime := r }
      else e1
    let e3 : Engine := { e2 with targetTime := some (now + e2.remainingTime * 1000) }
    let e4 : Engine := { e3 with intervalId := some freshId }
    (e4, [Event.tick e4.remainingTime e4.totalTime])

/-- One firing of the interval callback installed by start
(src/PomoTimer.ts lines 74-93).  Guard: return if targetTime is null.
Otherwise recompute remainingTime = ceil((targetTime - now)/1000), emit the
tick, and if remainingTime ≤ 0 clamp it to 0, capture the completing state,
stop, then emit onTimerComplete and onStateChange(capturedState). -/
def Engine.tick (e : Engine) (now : Int) : Engine × List Event :=
  match e.targetTime with
  | none => (e, [])
  | some target =>
    let diff := ceilDiv1000 (target - now)
    let e1 : Engine := { e with remainingTime := diff }
    if e1.remainingTime ≤ 0 then
      let e2 : Engine := { e1 with remainingTime := 0 }
      let completedState := e2.state
      let (e3, stopEvs) := e2.stop
      (e3, Event.tick diff e1.totalTime ::
             (stopEvs ++ [Event.complete, Event.stateChange completedState]))
    else
      (e1, [Event.tick diff e1.totalTime])

/-- PomoTimer.pause (src/PomoTimer.ts lines 99-109): only acts when an
interval is live and the state is neither Idle nor Paused. -/
def Engine.pause (e : Engine) : Engine × List Event :=
  if e.intervalId.isSome = true ∧ e.state ≠ .Idle ∧ e.state ≠ .Paused then
    let e1 : Engine :=
      { e with intervalId := none, prePauseState := e.state,
               state := .Paused, targetTime := none }
    (e1, [Event.tick e1.remainingTime e1.totalTime])
  else (e, [])

/-- PomoTimer.resume (src/PomoTimer.ts lines 111-117): when Paused,
delegate to start(prePauseState). -/
def Engine.resume (settings : PomodoroSettings) (now : Int) (freshId : Nat)
    (e : Engine) : Engine × List Event :=
  if e.state = .Paused then e.start settings now freshId e.prePauseState
  else (e, [])

/-- The Session Sequencer fields of class PomodoroPlugin
(src/main.ts lines 7-10), with their initializers. -/
structure Sequencer where
  currentMode : TimerState := .Work
  completedPomodoros : Nat := 0
  nextMode : TimerState := .ShortBreak
  isSessionComplete : Bool := false
deriving DecidableEq, Repr

/-- The sequencer state of a freshly loaded PomodoroPlugin. -/
def Sequencer.initial : Sequencer := {}

/-- PomodoroPlugin.advanceToNextMode (src/main.ts lines 416-438).  Returns
the updated sequencer together with whether the auto-start timeout of lines
431-436 was scheduled (the condition at lines 428-429). -/
def advanceToNextMode (settings : PomodoroSettings) (p : Sequencer) :
    Sequencer × Bool :=
  let p1 : Sequencer :=
    if p.currentMode = .Work then
      let c := p.completedPomodoros + 1
      if c % settings.longBreakInterval = 0 then
        { p with completedPomodoros := c, nextMode := .LongBreak }
      else
        { p with completedPomodoros := c, nextMode := .ShortBreak }
    else
      { p with nextMode := .Work }
  let scheduled : Bool :=
    (p1.currentMode == .Work && settings.autoStartBreaks) ||
    (p1.currentMode != .Work && settings.autoStartPomodoros)
  (p1, scheduled)

/-- PomodoroPlugin.acknowledgeSessionComplete (src/main.ts lines 440-446):
clear the flag; if the timer is not running, advance currentMode to
nextMode.  Touches no engine state (updateUI is read-only). -/
def acknowledgeSessionComplete (e : Engine) (p : Sequencer) : Sequencer :=
  let p1 : Sequencer := { p with isSessionComplete := false }
  if e.isRunning then p1 else { p1 with currentMode := p1.nextMode }

/-- The body of the auto-start timeout scheduled by advanceToNextMode
(src/main.ts lines 431-436): at fire time, if the completion is still
unacknowledged, set currentMode = nextMode and start the engine in it. -/
def autoAdvanceFire (settings : PomodoroSettings) (now : Int) (freshId : Nat)
    (e : Engine) (p : Sequencer) : Engine × Sequencer × List Event :=
  if p.isSessionComplete then
    let p1 : Sequencer := { p with currentMode := p.nextMode }
    let (e1, evs) := e.start settings now freshId p1.currentMode
    (e1, p1, evs)
  else (e, p, [])

/-- The sequencer-state portion of PomodoroPlugin.onTimerComplete
(src/main.ts lines 346-364): set isSessionComplete, then advanceToNextMode.
The side effects (sound, notification, toast) and the 10-second grace-expiry
timeout (whose body is acknowledgeSessionComplete) do not touch these
fields. -/
def onTimerCompletePlugin (settings : PomodoroSettings) (p : Sequencer) :
    Sequencer × Bool :=
  advanceToNextMode settings { p with isSessionComplete := true }

/-- Outcome reported to the user by handleCycleModeClick: the "Reset the
timer to switch modes" notice, an acknowledgement, or a mode switch. -/
inductive CycleOutcome
  | rejected
  | acknowledged
  | switched
deriving DecidableEq, Repr

/-- The forward cycle of the switch statement in handleCycleModeClick
(src/main.ts lines 331-341); states absent from the switch fall through
unchanged. -/
def cycleNext : TimerState → TimerState
  | .Work => .ShortBreak
  | .ShortBreak => .LongBreak
  | .LongBreak => .Work
  | s => s

/-- PomodoroPlugin.handleCycleModeClick (src/main.ts lines 320-344). -/
def handleCycleModeClick (e : Engine) (p : Sequencer) :
    Sequencer × CycleOutcome :=
  if e.state ≠ .Idle ∨ e.isRunning = true then (p, .rejected)
  else if p.isSessionComplete = true then
    (acknowledgeSessionComplete e p, .acknowledged)
  else
    ({ p with currentMode := cycleNext p.currentMode }, .switched)

/-- Engine states reachable from a fresh PomoTimer through its public
operations, with arbitrary settings, clock readings and interval handles.
A tick step is included unconditionally; it is a no-op unless targetTime is
set, which (by the invariant below) only happens while an interval is
live. -/
inductive Reachable : Engine → Prop
  | init : Reachable Engine.initial
  | start (settings : PomodoroSettings) (now : Int) (freshId : Nat)
      (s : TimerState) {e : Engine} :
      Reachable e → Reachable (e.start settings now freshId s).1
  | tick (now : Int) {e : Engine} :
      Reachable e → Reachable (e.tick now).1
  | pause {e : Engine} : Reachable e → Reachable e.pause.1
  | resume (settings : PomodoroSettings) (now : Int) (freshId : Nat)
      {e : Engine} :
      Reachable e → Reachable (e.resume settings now freshId).1
  | stop {e : Engine} : Reachable e → Reachable e.stop.1
  | reset {e : Engine} : Reachable e → Reachable e.reset.1

/-- The three session kinds, as opposed to the control states Idle and
Paused. -/
def SessionKind (s : TimerState) : Prop :=
  s = .Work ∨ s = .ShortBreak ∨ s = .LongBreak

instance (s : TimerState) : Decidable (SessionKind s) := by
  unfold SessionKind; infer_instance

/-- The engine invariant: targetTime is set iff the state is a ticking
session kind and an interval handle is live; a Paused engine remembers a
session kind in prePauseState; the stored times are never negative. -/
def EngineInv (e : Engine) : Prop :=
  (e.targetTime.isSome = true ↔
    (e.state ≠ .Idle ∧ e.state ≠ .Paused ∧ e.intervalId.isSome = true)) ∧
  (e.state = .Paused → SessionKind e.prePauseState) ∧
  0 ≤ e.remainingTime ∧ 0 ≤ e.totalTime

/-- Every onTick invocation recorded in an event list passes non-negative
remaining and total seconds. -/
def ticksNonneg (evs : List Event) : Prop :=
  ∀ r t, Event.tick r t ∈ evs → 0 ≤ r ∧ 0 ≤ t

/-- Sandwich bound characterizing ceilDiv1000 as the ceiling of x / 1000:
it is the least integer q with x ≤ 1000 * q. -/
theorem ceilDiv1000_bounds (x : Int) :
    1000 * ceilDiv1000 x - 1000 < x ∧ x ≤ 1000 * ceilDiv1000 x := by
  unfold ceilDiv1000
  omega

/-- Equation lemma: start rejects Idle and Paused as targets. -/
theorem start_guard (settings : PomodoroSettings) (now : Int) (freshId : Nat)
    (e : Engine) (s : TimerState) (h : s = .Idle ∨ s = .Paused) :
    e.start settings now freshId s = (e, []) := by
  simp [Engine.start, h]

/-- Equation lemma: start on a session kind with remainingTime ≤ 0
initializes a fresh session of the configured duration. -/
theorem start_fresh (settings : PomodoroSettings) (now : Int) (freshId : Nat)
    (e : Engine) (s : TimerState)
    (hsi : s ≠ .Idle) (hsp : s ≠ .Paused) (hle : e.remainingTime ≤ 0) :
    e.start settings now freshId s =
      ({ e with state := s,
                remainingTime := startDuration settings s e.remainingTime,
                totalTime := startDuration settings s e.remainingTime,
                targetTime :=
                  some (now + startDuration settings s e.remainingTime * 1000),
                intervalId := some freshId },
       [Event.tick (startDuration settings s e.remainingTime)
          (startDuration settings s e.remainingTime)]) := by
  simp [Engine.start, hsi, hsp, hle]

/-- Equation lemma: start on a session kind with remainingTime > 0 preserves
remainingTime and totalTime and recomputes targetTime from now. -/
theorem start_preserve (settings : PomodoroSettings) (now : Int)
    (freshId : Nat) (e : Engine) (s : TimerState)
    (hsi : s ≠ .Idle) (hsp : s ≠ .Paused) (hgt : 0 < e.remainingTime) :
    e.start settings now freshId s =
      ({ e with state := s,
                targetTime := some (now + e.remainingTime * 1000),
                intervalId := some freshId },
       [Event.tick e.remainingTime e.totalTime]) := by
  simp [Engine.start, hsi, hsp, not_le.mpr hgt]

/-- Equation lemma: a tick with no targetTime does nothing. -/
theorem tick_none (e : Engine) (now : Int) (h : e.targetTime = none) :
    e.tick now = (e, []) := by
  simp [Engine.tick, h]

/-- Equation lemma: a tick before the deadline stores the recomputed
remaining time and emits it. -/
theorem tick_run (e : Engine) (now target : Int)
    (h : e.targetTime = some target) (hpos : 0 < ceilDiv1000 (target - now)) :
    e.tick now =
      ({ e with remainingTime := ceilDiv1000 (target - now) },
       [Event.tick (ceilDiv1000 (target - now)) e.totalTime]) := by
  simp [Engine.tick, h, not_le.mpr hpos]

/-- Equation lemma: a tick at or past the deadline emits the recomputed
(possibly non-positive) remaining time, stops the engine, then emits the
completion pair carrying the pre-stop state. -/
theorem tick_done (e : Engine) (now target : Int)
    (h : e.targetTime = some target) (hle : ceilDiv1000 (target - now) ≤ 0) :
    e.tick now =
      ({ e with state := .Idle, remainingTime := 0, totalTime := 0,
                targetTime := none, intervalId := none },
       [Event.tick (ceilDiv1000 (target - now)) e.totalTime,
        Event.tick 0 0, Event.complete, Event.stateChange e.state]) := by
  simp [Engine.tick, Engine.stop, h, hle]

/-- Equation lemma: pause on a ticking session freezes it. -/
theorem pause_act (e : Engine)
    (hint : e.intervalId.isSome = true)
    (hsi : e.state ≠ .Idle) (hsp : e.state ≠ .Paused) :
    e.pause =
      ({ e with intervalId := none, prePauseState := e.state,
                state := .Paused, targetTime := none },
       [Event.tick e.remainingTime e.totalTime]) := by
  simp [Engine.pause, hint, hsi, hsp]

/-- Equation lemma: pause does nothing without a live interval and a
ticking session state. -/
theorem pause_skip (e : Engine)
    (h : ¬(e.intervalId.isSome = true ∧ e.state ≠ .Idle ∧ e.state ≠ .Paused)) :
    e.pause = (e, []) := by
  simp only [Engine.pause]
  exact if_neg h

theorem engineInv_initial : EngineInv Engine.initial := by
  unfold EngineInv Engine.initial
  refine ⟨by simp, by simp [SessionKind], by simp, by simp⟩

theorem engineInv_stop (e : Engine) : EngineInv e.stop.1 := by
  simp [Engine.stop, EngineInv]

theorem engineInv_reset (e : Engine) : EngineInv e.reset.1 := by
  simp [Engine.reset, Engine.stop, EngineInv]

theorem startDuration_nonneg (settings : PomodoroSettings) (s : TimerState)
    (fallback : Int) (hf : 0 ≤ fallback) :
    0 ≤ startDuration settings s fallback := by
  cases s <;> simp [startDuration] <;> positivity

theorem engineInv_start (settings : PomodoroSettings) (now : Int)
    (freshId : Nat) (s : TimerState) (e : Engine) (h : EngineInv e) :
    EngineInv (e.start settings now freshId s).1 := by
  obtain ⟨hiff, hpre, hrem, htot⟩ := h
  by_cases hguard : s = .Idle ∨ s = .Paused
  · rw [start_guard settings now freshId e s hguard]
    exact ⟨hiff, hpre, hrem, htot⟩
  · simp only [not_or] at hguard
    obtain ⟨hsi, hsp⟩ := hguard
    by_cases hle : e.remainingTime ≤ 0
    · rw [start_fresh settings now freshId e s hsi hsp hle]
      have hd := startDuration_nonneg settings s e.remainingTime hrem
      exact ⟨by simp [hsi, hsp], by simp [hsp], hd, hd⟩
    · rw [start_preserve settings now freshId e s hsi hsp (by omega)]
      exact ⟨by simp [hsi, hsp], by simp [hsp], hrem, htot⟩

theorem engineInv_tick (now : Int) (e : Engine) (h : EngineInv e) :
    EngineInv (e.tick now).1 := by
  obtain ⟨hiff, hpre, hrem, htot⟩ := h
  cases ht : e.targetTime with
  | none =>
    rw [tick_none e now ht]
    exact ⟨hiff, hpre, hrem, htot⟩
  | some target =>
    by_cases hle : ceilDiv1000 (target - now) ≤ 0
    · rw [tick_done e now target ht hle]
      simp [EngineInv]
    · rw [tick_run e now target ht (by omega)]
      have hceil : 0 ≤ ceilDiv1000 (target - now) := by omega
      exact ⟨hiff, hpre, hceil, htot⟩

theorem engineInv_pause (e : Engine) (h : EngineInv e) :
    EngineInv e.pause.1 := by
  obtain ⟨hiff, hpre, hrem, htot⟩ := h
  by_cases hguard : e.intervalId.isSome = true ∧ e.state ≠ .Idle ∧ e.state ≠ .Paused
  · obtain ⟨hint, hsi, hsp⟩ := hguard
    rw [pause_act e hint hsi hsp]
    refine ⟨by simp, ?_, hrem, htot⟩
    intro _
    cases hstate : e.state
    · exact Or.inl rfl
    · exact Or.inr (Or.inl rfl)
    · exact Or.inr (Or.inr rfl)
    · exact absurd hstate hsp
    · exact absurd hstate hsi
  · rw [pause_skip e hguard]
    exact ⟨hiff, hpre, hrem, htot⟩

theorem engineInv_resume (settings : PomodoroSettings) (now : Int)
    (freshId : Nat) (e : Engine) (h : EngineInv e) :
    EngineInv (e.resume settings now freshId).1 := by
  unfold Engine.resume
  split
  · exact engineInv_start settings now freshId e.prePauseState e h
  · exact h

/-- Every reachable engine state satisfies the invariant. -/
theorem engineInv_reachable {e : Engine} (h : Reachable e) : EngineInv e := by
  induction h with
  | init => exact engineInv_initial
  | start settings now freshId s _ ih =>
    exact engineInv_start settings now freshId s _ ih
  | tick now _ ih => exact engineInv_tick now _ ih
  | pause _ ih => exact engineInv_pause _ ih
  | resume settings now freshId _ ih =>
    exact engineInv_resume settings now freshId _ ih
  | stop _ ih => exact engineInv_stop _
  | reset _ ih => exact engineInv_reset _

/-- C1: for every mode m in Work, ShortBreak, LongBreak and configured
duration d minutes for m, start(m) on an Idle engine with remainingTime 0
leaves state = m and totalTime = remainingTime = d * 60 whole seconds
immediately after the call; start(Idle) and start(Paused) are rejected as
no-ops. -/
theorem c1_start_initializes (settings : PomodoroSettings) (now : Int)
    (freshId : Nat) (e : Engine)
    (hidle : e.state = .Idle) (hrem : e.remainingTime = 0) :
    ((e.start settings now freshId .Work).1.state = .Work ∧
     (e.start settings now freshId .Work).1.remainingTime =
       (settings.workTime : Int) * 60 ∧
     (e.start settings now freshId .Work).1.totalTime =
       (settings.workTime : Int) * 60) ∧
    ((e.start settings now freshId .ShortBreak).1.state = .ShortBreak ∧
     (e.start settings now freshId .ShortBreak).1.remainingTime =
       (settings.shortBreakTime : Int) * 60 ∧
     (e.start settings now freshId .ShortBreak).1.totalTime =
       (settings.shortBreakTime : Int) * 60) ∧
    ((e.start settings now freshId .LongBreak).1.state = .LongBreak ∧
     (e.start settings now freshId .LongBreak).1.remainingTime =
       (settings.longBreakTime : Int) * 60 ∧
     (e.start settings now freshId .LongBreak).1.totalTime =
       (settings.longBreakTime : Int) * 60) ∧
    e.start settings now freshId .Idle = (e, []) ∧
    e.start settings now freshId .Paused = (e, []) := by
  refine ⟨?_, ?_, ?_, start_guard settings now freshId e _ (Or.inl rfl),
    start_guard settings now freshId e _ (Or.inr rfl)⟩ <;>
  · rw [start_fresh settings now freshId e _ (by decide) (by decide) (by omega)]
    simp [startDuration]

theorem c1_witness :
    (Engine.initial.start DEFAULT_SETTINGS 0 1 .Work).1.state = .Work ∧
    (Engine.initial.start DEFAULT_SETTINGS 0 1 .Work).1.remainingTime = 1500 ∧
    (Engine.initial.start DEFAULT_SETTINGS 0 1 .Work).1.totalTime = 1500 ∧
    Engine.initial.start DEFAULT_SETTINGS 0 1 .Idle = (Engine.initial, []) := by
  have h := c1_start_initializes DEFAULT_SETTINGS 0 1 Engine.initial rfl rfl
  exact ⟨h.1.1, h.1.2.1.trans (by decide), h.1.2.2.trans (by decide), h.2.2.2.1⟩

/-- C9: reset() equals stop() followed by an extra zero tick, and is
idempotent: the observable engine state after each of two consecutive
resets is the same, namely Idle with zeroed times, no targetTime and no
interval handle. -/
theorem c9_reset_idempotent (e : Engine) :
    e.reset = (e.stop.1, e.stop.2 ++ [Event.tick 0 0]) ∧
    e.reset.1.state = .Idle ∧
    e.reset.1.remainingTime = 0 ∧
    e.reset.1.totalTime = 0 ∧
    e.reset.1.targetTime = none ∧
    e.reset.1.intervalId = none ∧
    e.reset.1.reset.1 = e.reset.1 ∧
    e.reset.1.reset.2 = e.reset.2 := by
  simp [Engine.reset, Engine.stop]

/-- C6: a Work completion increments completedWorkSessions by exactly one
and selects LongBreak as nextMode exactly when the new count is divisible
by sessionsUntilLongBreak, else ShortBreak; a break completion leaves the
count unchanged and selects Work; with the interval 4 the 4th, 8th, 12th...
Work completions select LongBreak. -/
theorem c6_advance (settings : PomodoroSettings) (p : Sequencer) :
    (p.currentMode = .Work →
      (advanceToNextMode settings p).1.completedPomodoros =
        p.completedPomodoros + 1 ∧
      ((p.completedPomodoros + 1) % settings.longBreakInterval = 0 →
        (advanceToNextMode settings p).1.nextMode = .LongBreak) ∧
      ((p.completedPomodoros + 1) % settings.longBreakInterval ≠ 0 →
        (advanceToNextMode settings p).1.nextMode = .ShortBreak)) ∧
    (p.currentMode = .ShortBreak ∨ p.currentMode = .LongBreak →
      (advanceToNextMode settings p).1.completedPomodoros =
        p.completedPomodoros ∧
      (advanceToNextMode settings p).1.nextMode = .Work) ∧
    (settings.longBreakInterval = 4 → p.currentMode = .Work →
      ((advanceToNextMode settings p).1.nextMode = .LongBreak ↔
        (p.completedPomodoros + 1) % 4 = 0)) := by
  refine ⟨fun hw => ?_, fun hb => ?_, fun h4 hw => ?_⟩
  · by_cases hm : (p.completedPomodoros + 1) % settings.longBreakInterval = 0 <;>
      simp [advanceToNextMode, hw, hm]
  · rcases hb with hb | hb <;> simp [advanceToNextMode, hb]
  · by_cases hm : (p.completedPomodoros + 1) % 4 = 0 <;>
      simp [advanceToNextMode, hw, h4, hm]

theorem c6_witness :
    (advanceToNextMode DEFAULT_SETTINGS
        { Sequencer.initial with completedPomodoros := 3 }).1.nextMode =
      .LongBreak ∧
    (advanceToNextMode DEFAULT_SETTINGS
        { Sequencer.initial with completedPomodoros := 3 }).1.completedPomodoros = 4 := by
  have h := c6_advance DEFAULT_SETTINGS
    { Sequencer.initial with completedPomodoros := 3 }
  exact ⟨(h.2.2 rfl rfl).mpr (by decide), (h.1 rfl).1⟩

/-- C7: a mode-switch request is honoured only while the engine is Idle
and not running, cycling Work to ShortBreak to LongBreak to Work; while
running or paused it is rejected with the reset-first notice and
currentMode is unchanged; with a pending completion it is reinterpreted as
an acknowledgement. -/
theorem c7_cycle_mode (e : Engine) (p : Sequencer) :
    (e.isRunning = true → handleCycleModeClick e p = (p, .rejected)) ∧
    (e.state = .Paused → handleCycleModeClick e p = (p, .rejected)) ∧
    (e.state = .Idle → p.isSessionComplete = true →
      handleCycleModeClick e p = (acknowledgeSessionComplete e p, .acknowledged)) ∧
    (e.state = .Idle → p.isSessionComplete = false →
      handleCycleModeClick e p =
        ({ p with currentMode := cycleNext p.currentMode }, .switched)) ∧
    cycleNext .Work = .ShortBreak ∧
    cycleNext .ShortBreak = .LongBreak ∧
    cycleNext .LongBreak = .Work := by
  refine ⟨fun hrun => ?_, fun hp => ?_, fun hi hc => ?_, fun hi hc => ?_,
    rfl, rfl, rfl⟩
  · simp only [Engine.isRunning, Bool.and_eq_true, bne_iff_ne] at hrun
    simp [handleCycleModeClick, hrun.1]
  · simp [handleCycleModeClick, hp]
  · simp [handleCycleModeClick, Engine.isRunning, hi, hc]
  · simp [handleCycleModeClick, Engine.isRunning, hi, hc]

theorem c7_witness :
    handleCycleModeClick Engine.initial Sequencer.initial =
      ({ Sequencer.initial with currentMode := .ShortBreak }, .switched) := by
  have h := (c7_cycle_mode Engine.initial Sequencer.initial).2.2.2.1 rfl rfl
  simpa [cycleNext, Sequencer.initial] using h

/-- C5: in every reachable engine state, targetTime is set if and only if
the state is outside Idle and Paused and a live interval handle exists;
start establishes targetTime and the handle together, while pause (when it
acts) and stop clear both together. -/
theorem c5_targetTime_iff (e : Engine) (hre : Reachable e) :
    (e.targetTime.isSome = true ↔
      (e.state ≠ .Idle ∧ e.state ≠ .Paused ∧ e.intervalId.isSome = true)) ∧
    (∀ settings now freshId s, s ≠ TimerState.Idle → s ≠ TimerState.Paused →
      (e.start settings now freshId s).1.targetTime =
        some (now + (e.start settings now freshId s).1.remainingTime * 1000) ∧
      (e.start settings now freshId s).1.intervalId = some freshId) ∧
    ((e.pause.1.targetTime = none ∧ e.pause.1.intervalId = none) ∨
      e.pause = (e, [])) ∧
    (e.stop.1.targetTime = none ∧ e.stop.1.intervalId = none) := by
  refine ⟨(engineInv_reachable hre).1, ?_, ?_, by simp [Engine.stop]⟩
  · intro settings now freshId s hsi hsp
    by_cases hle : e.remainingTime ≤ 0
    · rw [start_fresh settings now freshId e s hsi hsp hle]
      simp
    · rw [start_preserve settings now freshId e s hsi hsp (by omega)]
      simp
  · by_cases hguard :
      e.intervalId.isSome = true ∧ e.state ≠ .Idle ∧ e.state ≠ .Paused
    · rw [pause_act e hguard.1 hguard.2.1 hguard.2.2]
      simp
    · exact Or.inr (pause_skip e hguard)

theorem c5_witness :
    Reachable Engine.initial ∧
    (Engine.initial.start DEFAULT_SETTINGS 0 1 .Work).1.targetTime =
      some 1500000 ∧
    (Engine.initial.start DEFAULT_SETTINGS 0 1 .Work).1.intervalId = some 1 := by
  have h := (c5_targetTime_iff Engine.initial Reachable.init).2.1
    DEFAULT_SETTINGS 0 1 .Work (by decide) (by decide)
  refine ⟨Reachable.init, h.1.trans (by decide), h.2⟩

/-- C10: in every reachable engine state that is Paused, prePauseState is
one of the three session kinds; hence resume never delegates to
start(Idle) or start(Paused) and restarts exactly the suspended session
kind, emitting its immediate tick rather than acting as a no-op. -/
theorem c10_paused_prepause (e : Engine) (hre : Reachable e)
    (hp : e.state = .Paused) :
    SessionKind e.prePauseState ∧
    e.prePauseState ≠ .Idle ∧ e.prePauseState ≠ .Paused ∧
    ∀ settings now freshId,
      (e.resume settings now freshId).1.state = e.prePauseState ∧
      (e.resume settings now freshId).2 ≠ [] := by
  have hsk := (engineInv_reachable hre).2.1 hp
  have hsi : e.prePauseState ≠ .Idle := by
    rcases hsk with h | h | h <;> rw [h] <;> decide
  have hsp : e.prePauseState ≠ .Paused := by
    rcases hsk with h | h | h <;> rw [h] <;> decide
  refine ⟨hsk, hsi, hsp, fun settings now freshId => ?_⟩
  unfold Engine.resume
  rw [if_pos hp]
  by_cases hle : e.remainingTime ≤ 0
  · rw [start_fresh settings now freshId e _ hsi hsp hle]
    simp
  · rw [start_preserve settings now freshId e _ hsi hsp (by omega)]
    simp

theorem c10_witness :
    ((Engine.initial.start DEFAULT_SETTINGS 0 1 .Work).1.pause.1.resume
        DEFAULT_SETTINGS 5000 2).1.state =
      (Engine.initial.start DEFAULT_SETTINGS 0 1 .Work).1.pause.1.prePauseState ∧
    SessionKind
      (Engine.initial.start DEFAULT_SETTINGS 0 1 .Work).1.pause.1.prePauseState := by
  have h := c10_paused_prepause _
    (Reachable.pause (Reachable.start DEFAULT_SETTINGS 0 1 .Work Reachable.init))
    (by decide)
  exact ⟨(h.2.2.2 DEFAULT_SETTINGS 5000 2).1, h.1⟩

/-- C3: when a countdown reaches zero (the deadline has passed), the tick
handler emits exactly one completion pair, whose state-change event carries
the session kind captured before stop — never Idle — after the zero tick of
stop; the resulting engine is Idle with remainingTime 0, no targetTime and
no interval handle, and any later tick of it emits nothing, so the
completion fires exactly once per countdown; before the deadline no
completion event is emitted. -/
theorem c3_completion_once (e : Engine) (target now : Int)
    (hre : Reachable e) (ht : e.targetTime = some target) :
    (target ≤ now →
      (e.tick now).2 =
        [Event.tick (ceilDiv1000 (target - now)) e.totalTime,
         Event.tick 0 0, Event.complete, Event.stateChange e.state] ∧
      SessionKind e.state ∧
      (e.tick now).1.state = .Idle ∧
      (e.tick now).1.remainingTime = 0 ∧
      (e.tick now).1.intervalId = none ∧
      (e.tick now).1.targetTime = none ∧
      (∀ now2, (e.tick now).1.tick now2 = ((e.tick now).1, []))) ∧
    (now < target →
      Event.complete ∉ (e.tick now).2 ∧
      ∀ s, Event.stateChange s ∉ (e.tick now).2) := by
  have hiff := (engineInv_reachable hre).1
  have hstate : e.state ≠ .Idle ∧ e.state ≠ .Paused := by
    have := (hiff.mp (by rw [ht]; rfl))
    exact ⟨this.1, this.2.1⟩
  have hsk : SessionKind e.state := by
    cases hst : e.state
    · exact Or.inl rfl
    · exact Or.inr (Or.inl rfl)
    · exact Or.inr (Or.inr rfl)
    · exact absurd hst hstate.2
    · exact absurd hst hstate.1
  have hb := ceilDiv1000_bounds (target - now)
  constructor
  · intro hle
    have hc : ceilDiv1000 (target - now) ≤ 0 := by omega
    rw [tick_done e now target ht hc]
    refine ⟨rfl, hsk, rfl, rfl, rfl, rfl, fun now2 => ?_⟩
    exact tick_none _ now2 rfl
  · intro hlt
    have hc : 0 < ceilDiv1000 (target - now) := by omega
    rw [tick_run e now target ht hc]
    simp

theorem c3_witness :
    ((Engine.initial.start DEFAULT_SETTINGS 0 1 .Work).1.tick 1500000).2 =
      [Event.tick 0 1500, Event.tick 0 0, Event.complete,
       Event.stateChange .Work] ∧
    ((Engine.initial.start DEFAULT_SETTINGS 0 1 .Work).1.tick 1500000).1.state =
      .Idle := by
  have h := (c3_completion_once _ 1500000 1500000
    (Reachable.start DEFAULT_SETTINGS 0 1 .Work Reachable.init)
    (by decide)).1 (le_refl _)
  exact ⟨h.1.trans (by decide), h.2.2.1⟩

/-- C4 counterexample: the recurring tick invokes onTick before clamping,
so a tick firing more than one second past targetTime passes a negative
remainingSeconds.  Starting a 25-minute Work session at time 0 puts the
deadline at 1500000 ms; the tick at 1501500 ms emits onTick(-1, 1500). -/
theorem c4_counterexample :
    Event.tick (-1) 1500 ∈
      ((Engine.initial.start DEFAULT_SETTINGS 0 1 .Work).1.tick 1501500).2 ∧
    ¬(0 : Int) ≤ -1 := by
  constructor
  · decide
  · decide

/-- C4 (amended): every onTick invocation emitted by start, pause, resume,
stop and reset on a reachable engine passes non-negative integers, and so
does the recurring tick provided it fires less than one second past
targetTime; a tick firing later passes the negative un-clamped
ceil((targetTime - now)/1000), because the clamp to 0 happens only after
the onTick call. -/
theorem c4_ticks_nonneg (e : Engine) (hre : Reachable e) :
    (∀ settings now freshId s, ticksNonneg (e.start settings now freshId s).2) ∧
    ticksNonneg e.pause.2 ∧
    ticksNonneg e.stop.2 ∧
    ticksNonneg e.reset.2 ∧
    (∀ settings now freshId, ticksNonneg (e.resume settings now freshId).2) ∧
    (∀ target now, e.targetTime = some target → now < target + 1000 →
      ticksNonneg (e.tick now).2) := by
  obtain ⟨hiff, hpre, hrem, htot⟩ := engineInv_reachable hre
  have hstart : ∀ settings now freshId s,
      ticksNonneg (e.start settings now freshId s).2 := by
    intro settings now freshId s
    by_cases hguard : s = .Idle ∨ s = .Paused
    · rw [start_guard settings now freshId e s hguard]
      intro r t hmem
      simp at hmem
    · simp only [not_or] at hguard
      by_cases hle : e.remainingTime ≤ 0
      · rw [start_fresh settings now freshId e s hguard.1 hguard.2 hle]
        have hd := startDuration_nonneg settings s e.remainingTime hrem
        intro r t hmem
        simp only [List.mem_singleton, Event.tick.injEq] at hmem
        omega
      · rw [start_preserve settings now freshId e s hguard.1 hguard.2 (by omega)]
        intro r t hmem
        simp only [List.mem_singleton, Event.tick.injEq] at hmem
        omega
  refine ⟨hstart, ?_, ?_, ?_, ?_, ?_⟩
  · by_cases hguard :
      e.intervalId.isSome = true ∧ e.state ≠ .Idle ∧ e.state ≠ .Paused
    · rw [pause_act e hguard.1 hguard.2.1 hguard.2.2]
      intro r t hmem
      simp only [List.mem_singleton, Event.tick.injEq] at hmem
      omega
    · rw [pause_skip e hguard]
      intro r t hmem
      simp at hmem
  · intro r t hmem
    simp only [Engine.stop, List.mem_singleton, Event.tick.injEq] at hmem
    omega
  · intro r t hmem
    simp [Engine.reset, Engine.stop] at hmem
    omega
  · intro settings now freshId
    unfold Engine.resume
    split
    · exact hstart settings now freshId e.prePauseState
    · intro r t hmem
      simp at hmem
  · intro target now ht hlt
    have hb := ceilDiv1000_bounds (target - now)
    by_cases hc : ceilDiv1000 (target - now) ≤ 0
    · rw [tick_done e now target ht hc]
      intro r t hmem
      simp only [List.mem_cons, Event.tick.injEq] at hmem
      rcases hmem with h | h | h
      · omega
      · omega
      · simp at h
    · rw [tick_run e now target ht (by omega)]
      intro r t hmem
      simp only [List.mem_singleton, Event.tick.injEq] at hmem
      omega

theorem c4_witness :
    Reachable Engine.initial ∧ ticksNonneg Engine.initial.stop.2 := by
  exact ⟨Reachable.init, (c4_ticks_nonneg Engine.initial Reachable.init).2.2.1⟩

/-- C2: a countdown started from remainingTime r seconds at time t0, ticked
deltaMs milliseconds later (with deltaMs < 1000 * r), paused, and resumed
at an arbitrary later time t2, preserves the paused value
r1 = ceil((1000 r - deltaMs)/1000) across the pause: the resume emits an
immediate tick reporting r1, which is positive and within one second below
r - deltaMs/1000 (1000 r - deltaMs ≤ 1000 r1 < 1000 r - deltaMs + 1000),
and targetTime is recomputed as t2 + 1000 r1, so no wall-clock time spent
paused is lost or double-counted. -/
theorem c2_pause_resume (settings : PomodoroSettings) (e : Engine)
    (s : TimerState) (r t0 deltaMs t2 : Int) (id1 id2 : Nat)
    (e1 e2 e3 : Engine) (r1 : Int)
    (hs : SessionKind s)
    (hr : e.remainingTime = r) (hrpos : 0 < r)
    (hd0 : 0 ≤ deltaMs) (hdr : deltaMs < 1000 * r)
    (he1 : e1 = (e.start settings t0 id1 s).1)
    (he2 : e2 = (e1.tick (t0 + deltaMs)).1)
    (he3 : e3 = e2.pause.1)
    (hr1 : r1 = ceilDiv1000 (r * 1000 - deltaMs)) :
    e1.targetTime = some (t0 + r * 1000) ∧
    e2.remainingTime = r1 ∧
    e3.state = .Paused ∧ e3.remainingTime = r1 ∧ e3.targetTime = none ∧
    (e3.resume settings t2 id2).1.state = s ∧
    (e3.resume settings t2 id2).1.remainingTime = r1 ∧
    (e3.resume settings t2 id2).1.targetTime = some (t2 + r1 * 1000) ∧
    (e3.resume settings t2 id2).2 = [Event.tick r1 e3.totalTime] ∧
    0 < r1 ∧ 1000 * r - deltaMs ≤ 1000 * r1 ∧
    1000 * r1 < 1000 * r - deltaMs + 1000 := by
  have hsi : s ≠ .Idle := by
    rcases hs with h | h | h <;> rw [h] <;> decide
  have hsp : s ≠ .Paused := by
    rcases hs with h | h | h <;> rw [h] <;> decide
  have hb := ceilDiv1000_bounds (r * 1000 - deltaMs)
  have hr1pos : 0 < r1 := by rw [hr1]; omega
  have hgt : 0 < e.remainingTime := by omega
  have he1' : e1 =
      { e with
        state := s,
        targetTime := some (t0 + r * 1000),
        intervalId := some id1 } := by
    rw [he1, start_preserve settings t0 id1 e s hsi hsp hgt]
    simp [hr]
  have harg : t0 + r * 1000 - (t0 + deltaMs) = r * 1000 - deltaMs := by ring
  have hpos' : 0 < ceilDiv1000 (t0 + r * 1000 - (t0 + deltaMs)) := by
    rw [harg, ← hr1]; exact hr1pos
  have he2' : e2 =
      { e with
        state := s,
        remainingTime := r1,
        targetTime := some (t0 + r * 1000),
        intervalId := some id1 } := by
    rw [he2, he1', tick_run _ (t0 + deltaMs) (t0 + r * 1000) (by simp) hpos']
    simp [harg, ← hr1]
  have he3' : e3 =
      { e with
        state := .Paused,
        prePauseState := s,
        remainingTime := r1,
        targetTime := none,
        intervalId := none } := by
    rw [he3, he2',
      pause_act _ (by simp) (by simpa using hsi) (by simpa using hsp)]
  have hres : e3.resume settings t2 id2 =
      ({ e with
         state := s,
         prePauseState := s,
         remainingTime := r1,
         targetTime := some (t2 + r1 * 1000),
         intervalId := some id2 },
       [Event.tick r1 e.totalTime]) := by
    rw [he3']
    unfold Engine.resume
    rw [if_pos rfl]
    rw [start_preserve settings t2 id2 _ s (by simpa using hsi)
      (by simpa using hsp) (by simpa using hr1pos)]
  refine ⟨by simp [he1'], by simp [he2'], by simp [he3'], by simp [he3'],
    by simp [he3'], by simp [hres], by simp [hres], by simp [hres],
    by rw [hres, he3'], hr1pos, by omega, by omega⟩

theorem c2_witness :
    (0 : Int) < 90 ∧ (0 : Int) ≤ 61000 ∧ (61000 : Int) < 1000 * 90 ∧
    ceilDiv1000 ((90 : Int) * 1000 - 61000) = 29 ∧
    0 < ceilDiv1000 ((90 : Int) * 1000 - 61000) := by
  have h := c2_pause_resume DEFAULT_SETTINGS
    { Engine.initial with remainingTime := 90 } .Work 90 0 61000 777777 1 2
    _ _ _ _ (Or.inl rfl) rfl (by decide) (by decide) (by decide)
    rfl rfl rfl rfl
  exact ⟨by decide, by decide, by decide, by decide,
    h.2.2.2.2.2.2.2.2.2.1⟩

/-- C8: after a Work completion, the auto-start timeout is scheduled
exactly when autoStartBreaks is set; at fire time an unacknowledged
completion sets currentMode to the computed nextMode (always a break kind
after a Work completion) and starts the engine in it, while a prior
acknowledgement makes the fire a no-op; with autoStartBreaks unset nothing
is scheduled and the grace-expiry acknowledgement only updates the
sequencer — it makes no engine call, so an Idle engine remains Idle. -/
theorem c8_autostart (settings : PomodoroSettings) (p : Sequencer)
    (hw : p.currentMode = .Work) :
    (settings.autoStartBreaks = true →
      (onTimerCompletePlugin settings p).2 = true) ∧
    (settings.autoStartBreaks = false →
      (onTimerCompletePlugin settings p).2 = false) ∧
    ((onTimerCompletePlugin settings p).1.nextMode = .ShortBreak ∨
      (onTimerCompletePlugin settings p).1.nextMode = .LongBreak) ∧
    (onTimerCompletePlugin settings p).1.isSessionComplete = true ∧
    (∀ now freshId (e : Engine) (q : Sequencer),
      q.isSessionComplete = true →
      q.nextMode ≠ TimerState.Idle → q.nextMode ≠ TimerState.Paused →
      (autoAdvanceFire settings now freshId e q).2.1.currentMode = q.nextMode ∧
      (autoAdvanceFire settings now freshId e q).1.state = q.nextMode ∧
      (autoAdvanceFire settings now freshId e q).1.intervalId = some freshId) ∧
    (∀ now freshId (e : Engine) (q : Sequencer),
      q.isSessionComplete = false →
      autoAdvanceFire settings now freshId e q = (e, q, [])) ∧
    (∀ (e : Engine) (q : Sequencer), e.isRunning = false →
      (acknowledgeSessionComplete e q).isSessionComplete = false ∧
      (acknowledgeSessionComplete e q).currentMode = q.nextMode) := by
  refine ⟨?_, ?_, ?_, ?_, ?_, ?_, ?_⟩
  · intro hb
    by_cases hm :
        (p.completedPomodoros + 1) % settings.longBreakInterval = 0 <;>
      simp [onTimerCompletePlugin, advanceToNextMode, hw, hm, hb]
  · intro hb
    by_cases hm :
        (p.completedPomodoros + 1) % settings.longBreakInterval = 0 <;>
      simp [onTimerCompletePlugin, advanceToNextMode, hw, hm, hb]
  · by_cases hm :
        (p.completedPomodoros + 1) % settings.longBreakInterval = 0
    · exact Or.inr (by simp [onTimerCompletePlugin, advanceToNextMode, hw, hm])
    · exact Or.inl (by simp [onTimerCompletePlugin, advanceToNextMode, hw, hm])
  · by_cases hm :
        (p.completedPomodoros + 1) % settings.longBreakInterval = 0 <;>
      simp [onTimerCompletePlugin, advanceToNextMode, hw, hm]
  · intro now freshId e q hq hni hnp
    have hfire : autoAdvanceFire settings now freshId e q =
        ((e.start settings now freshId q.nextMode).1,
         { q with currentMode := q.nextMode },
         (e.start settings now freshId q.nextMode).2) := by
      unfold autoAdvanceFire
      rw [if_pos hq]
    rw [hfire]
    by_cases hle : e.remainingTime ≤ 0
    · rw [start_fresh settings now freshId e _ hni hnp hle]
      simp
    · rw [start_preserve settings now freshId e _ hni hnp (by omega)]
      simp
  · intro now freshId e q hq
    unfold autoAdvanceFire
    rw [if_neg (by simp [hq])]
  · intro e q hrun
    simp [acknowledgeSessionComplete, hrun]

theorem c8_witness :
    (onTimerCompletePlugin
        { DEFAULT_SETTINGS with autoStartBreaks := true }
        Sequencer.initial).2 = true ∧
    (autoAdvanceFire { DEFAULT_SETTINGS with autoStartBreaks := true } 0 1
        Engine.initial
        { Sequencer.initial with isSessionComplete := true }).1.state =
      .ShortBreak := by
  have h := c8_autostart { DEFAULT_SETTINGS with autoStartBreaks := true }
    Sequencer.initial rfl
  refine ⟨h.1 rfl, ?_⟩
  have h5 := (h.2.2.2.2.1 0 1 Engine.initial
    { Sequencer.initial with isSessionComplete := true }
    rfl (by decide) (by decide)).2.1
  exact h5

end Minidoro
